import Mathlib

/-!
Shallow embedding of the vSphere source adapter's poll/dispatch/checkpoint
pipeline (`pkg/vsphere/adapter.go`). Time is modelled at Unix-second
granularity as `Int` for upstream timestamps and as a `Nat` model clock for
the loop; the Go zero `time.Time` is modelled as `none`.
-/

namespace VSphereAdapter

/-- A vCenter base event as consumed by the adapter: its key (monotonic id
assigned by vCenter), creation time (upstream clock, Unix seconds) and the
type/class strings produced by `getEventDetails`. -/
structure BaseEvent where
  key : Int
  createdTime : Int
  eventType : String
  eventClass : String
  deriving Repr, DecidableEq

/-- Modelled from the spec: the `checkpoint` record (its defining file is
not under `src/`), with the fields written by `readEvents` and described in
the data-model section: source identity, last event key/type/timestamp and
the wall-clock write time. `lastEventKeyTimestamp = none` models the Go
zero `time.Time` (`IsZero`). -/
structure Checkpoint where
  vCenter : String
  lastEventKey : Int
  lastEventType : String
  lastEventKeyTimestamp : Option Int
  createdTimestamp : Int
  deriving Repr, DecidableEq

/-- Read up to this many events per poll iteration (`maxEventsBatch`). -/
def maxEventsBatch : Nat := 100

/-- Outcomes of the two external effects inside `sendEvents`: whether
`ev.SetData` succeeds for an event, and whether the sink ACKs its send. -/
structure SinkModel where
  setDataOk : BaseEvent → Bool
  ack : BaseEvent → Bool

/-- The error returned by `sendEvents`: either the `SetData` error or the
non-ACK send result of a given event. -/
inductive SendErr where
  | setData (e : BaseEvent)
  | nack (e : BaseEvent)
  deriving Repr, DecidableEq

/-- Result of `sendEvents`, together with the trace of events actually
passed to `CEClient.Send`, in order. -/
structure SendOutcome where
  success : Nat
  err : Option SendErr
  sent : List BaseEvent
  deriving Repr, DecidableEq

/-- `sendEvents` iterates the batch in order; a conversion (`SetData`)
failure returns before sending the event, a non-ACK send result returns
after sending it, and otherwise the success count is incremented and the
iteration continues; full success returns the batch length and no error. -/
def sendEvents (m : SinkModel) : List BaseEvent → SendOutcome
  | [] => ⟨0, none, []⟩
  | be :: rest =>
    if m.setDataOk be then
      if m.ack be then
        let o := sendEvents m rest
        ⟨o.success + 1, o.err, be :: o.sent⟩
      else ⟨0, some (.nack be), [be]⟩
    else ⟨0, some (.setData be), []⟩

/-- `getBeginFromCheckpoint`: begin defaults to the current vCenter time; a
valid (non-zero) checkpoint timestamp is used exactly unless it lies before
`vcTime - maxAge`, in which case that floor is used and a potential
data-loss warning is logged (modelled by the second component). -/
def getBeginFromCheckpoint (vcTime : Int) (cp : Checkpoint) (maxAge : Int) :
    Int × Bool :=
  match cp.lastEventKeyTimestamp with
  | none => (vcTime, false)
  | some cpTime =>
    let maxTime := vcTime - maxAge
    if maxTime > cpTime then (maxTime, true) else (cpTime, false)

/-- Modelled from the spec: the backoff policy object (the external
`jpillora/backoff` dependency is not under `src/`), instantiated in
`readEvents` with `Factor = 2`, `Jitter = false`, `Min = 1s`, `Max = 5s`.
Only the attempt counter is state; durations are in whole seconds. -/
structure Backoff where
  attempt : Nat
  deriving Repr, DecidableEq

/-- Modelled from the spec: `duration(n) = min(max, min_delay * factor^n)`
with `factor = 2`, `min_delay = 1`, `max_delay = 5` (seconds), no jitter. -/
def backoffForAttempt (n : Nat) : Nat :=
  if 2 ^ n > 5 then 5 else 2 ^ n

/-- `Duration()` returns the delay for the current attempt and increments
the attempt counter. -/
def Backoff.duration (b : Backoff) : Nat × Backoff :=
  (backoffForAttempt b.attempt, ⟨b.attempt + 1⟩)

/-- `Reset()` returns the attempt counter to zero. -/
def Backoff.reset (_ : Backoff) : Backoff := ⟨0⟩

/-- Errors that terminate `readEvents`/`run` (the wrapped Go errors). -/
inductive LoopErr where
  | ctxCanceled
  | readNextEvents
  | getCheckpoint
  | saveCheckpoint
  | setCheckpoint
  deriving Repr, DecidableEq

/-- The mutable state of one `readEvents` loop: `lastEvent` and
`lastCheckpointEventKey` as in the Go function, the backoff state, the KV
store's in-memory (staged) checkpoint, the count of durable `Save` calls,
and a model clock (seconds) advanced by `time.Sleep`. -/
structure LoopState where
  lastEvent : Option BaseEvent
  lastCheckpointEventKey : Int
  boff : Backoff
  staged : Option Checkpoint
  flushCount : Nat
  now : Nat
  deriving Repr, DecidableEq

/-- Which `select` branch fires in one iteration, with the outcomes of the
external calls made on that branch: `tick` carries the KV `Get` and `Save`
results of the flush path, `poll` carries the `ReadNextEvents` result
(`none` models a read error) and the KV `Set` result. -/
inductive BranchInput where
  | cancelledCtx
  | tick (getOk saveOk : Bool)
  | poll (events : Option (List BaseEvent)) (setOk : Bool)
  deriving Repr, DecidableEq

/-- Outcome of one loop iteration: continue, return with an error, or hit
the `panic` statement. -/
inductive StepResult where
  | next (s : LoopState)
  | fail (e : LoopErr) (s : LoopState)
  | panicked (s : LoopState)
  deriving Repr, DecidableEq

/-- One iteration of the `for { select { ... } }` loop of `readEvents`:
cancellation returns the context error; a ticker firing flushes the staged
checkpoint (`Get` then `Save`) unless `lastEvent` is nil or its key equals
the key recorded at the last flush; the default branch polls a batch,
dispatches it with `sendEvents`, and on at least one success stages a new
checkpoint built from the last successfully sent event, then resets the
backoff; an empty batch sleeps for the backoff duration. -/
def step (src : String) (m : SinkModel) (s : LoopState) :
    BranchInput → StepResult
  | .cancelledCtx => .fail .ctxCanceled s
  | .tick getOk saveOk =>
    match s.lastEvent with
    | none => .next s
    | some e =>
      if s.lastCheckpointEventKey = e.key then .next s
      else if getOk = false then .fail .getCheckpoint s
      else if saveOk = false then .fail .saveCheckpoint s
      else .next { s with flushCount := s.flushCount + 1,
                          lastCheckpointEventKey := e.key }
  | .poll none _ => .fail .readNextEvents s
  | .poll (some events) setOk =>
    if events.isEmpty then
      let d := s.boff.duration
      .next { s with boff := d.2, now := s.now + d.1 }
    else
      let o := sendEvents m events
      if o.success = 0 then
        if o.err.isSome then .next s else .panicked s
      else
        match events[o.success - 1]? with
        | none => .panicked s
        | some le =>
          let cp : Checkpoint :=
            ⟨src, le.key, le.eventType, some le.createdTime, (s.now : Int)⟩
          let s1 := { s with lastEvent := some le }
          if setOk then
            .next { s1 with staged := some cp, boff := s1.boff.reset }
          else .fail .setCheckpoint s1

/-- The KV store's staged checkpoint after a step, for any outcome. -/
def StepResult.staged : StepResult → Option Checkpoint
  | .next s => s.staged
  | .fail _ s => s.staged
  | .panicked s => s.staged

/-- True when the flush path would write: `lastEvent` is set and its key
differs from the key recorded at the last durable flush (the negation of
the `skip` condition in the ticker branch). -/
def flushPending (s : LoopState) : Bool :=
  match s.lastEvent with
  | none => false
  | some e => decide (s.lastCheckpointEventKey ≠ e.key)

/-- Startup sequence of `run`: a failing initial KV `Get` is only logged as
a warning and the checkpoint stays at its zero value, while a failure to
get the current vCenter time aborts the run. Returns the begin time passed
to the history collector with the data-loss-warning flag. -/
def runStartup (kvGet : Except Unit Checkpoint) (vcTime : Except Unit Int)
    (maxAge : Int) : Except Unit (Int × Bool) :=
  let cp : Checkpoint :=
    match kvGet with
    | .ok c => c
    | .error _ => ⟨"", 0, "", none, 0⟩
  match vcTime with
  | .error e => .error e
  | .ok t => .ok (getBeginFromCheckpoint t cp maxAge)

/-- Whether `ctx.Done()` is ready at the given model time. -/
def ctxDone (cancelAt : Option Nat) (now : Nat) : Bool :=
  match cancelAt with
  | some t => decide (t ≤ now)
  | none => false

/-- Summary of a finite run of the loop over a script of branch inputs. -/
inductive RunResult where
  | running (s : LoopState)
  | returned (e : LoopErr) (s : LoopState)
  | panicked (s : LoopState)
  deriving Repr, DecidableEq

/-- Run the loop over a script of branch inputs. Cancellation is observed
at the top of each iteration once the model clock has reached `cancelAt`;
inside an iteration — in particular inside the backoff `time.Sleep` — it is
not consulted, as in the Go code. -/
def loopRun (src : String) (m : SinkModel) (cancelAt : Option Nat) :
    LoopState → List BranchInput → RunResult
  | s, [] => .running s
  | s, i :: rest =>
    if ctxDone cancelAt s.now then .returned .ctxCanceled s
    else
      match step src m s i with
      | .next s2 => loopRun src m cancelAt s2 rest
      | .fail e s2 => .returned e s2
      | .panicked s2 => .panicked s2

/-- Number of durable checkpoint writes performed by a finished run. -/
def RunResult.flushes : RunResult → Nat
  | .running s => s.flushCount
  | .returned _ s => s.flushCount
  | .panicked s => s.flushCount

/-! Concrete fixtures used by witnesses and counterexamples. -/

/-- A sample event with key 7. -/
def e1 : BaseEvent := ⟨7, 100, "VmPoweredOnEvent", "event"⟩

/-- A sample event with key 8. -/
def e2 : BaseEvent := ⟨8, 101, "VmPoweredOffEvent", "event"⟩

/-- A sample event with key 9. -/
def e3 : BaseEvent := ⟨9, 102, "VmRemovedEvent", "event"⟩

/-- A sink that converts and acknowledges every event. -/
def ackAll : SinkModel := ⟨fun _ => true, fun _ => true⟩

/-- A sink that converts every event but acknowledges none. -/
def nackAll : SinkModel := ⟨fun _ => true, fun _ => false⟩

/-- A sink that negatively acknowledges exactly the event with key 8. -/
def mNack8 : SinkModel := ⟨fun _ => true, fun e => decide (e.key ≠ 8)⟩

/-- The loop state at entry of `readEvents`. -/
def initState : LoopState := ⟨none, 0, ⟨0⟩, none, 0, 0⟩

/-- A loop state whose backoff attempt counter is already at 2. -/
def sBoff2 : LoopState := ⟨none, 0, ⟨2⟩, none, 0, 0⟩

/-! Lemmas about `sendEvents`. -/

/-- The success count never exceeds the batch length. -/
theorem sendEvents_success_le (m : SinkModel) (es : List BaseEvent) :
    (sendEvents m es).success ≤ es.length := by
  induction es with
  | nil => simp [sendEvents]
  | cons be rest ih =>
    rw [sendEvents]
    by_cases h1 : m.setDataOk be = true
    · rw [if_pos h1]
      by_cases h2 : m.ack be = true
      · rw [if_pos h2]; simpa using ih
      · rw [if_neg h2]; simp
    · rw [if_neg h1]; simp

/-- If the success count is `k + 1`, the `(k+1)`-th event of the batch
exists, converted successfully and was acknowledged by the sink. -/
theorem sendEvents_last (m : SinkModel) (es : List BaseEvent) (k : Nat)
    (h : (sendEvents m es).success = k + 1) :
    ∃ e, es[k]? = some e ∧ m.setDataOk e = true ∧ m.ack e = true := by
  induction es generalizing k with
  | nil => simp [sendEvents] at h
  | cons be rest ih =>
    rw [sendEvents] at h
    by_cases h1 : m.setDataOk be = true
    · rw [if_pos h1] at h
      by_cases h2 : m.ack be = true
      · rw [if_pos h2] at h
        simp only at h
        cases k with
        | zero =>
          exact ⟨be, by simp, h1, h2⟩
        | succ j =>
          have hr : (sendEvents m rest).success = j + 1 := by
            simpa using h
          obtain ⟨e, he, hsd, hac⟩ := ih j hr
          exact ⟨e, by simpa using he, hsd, hac⟩
      · rw [if_neg h2] at h; simp at h
    · rw [if_neg h1] at h; simp at h

/-- A nil error means the whole batch was processed. -/
theorem sendEvents_err_none (m : SinkModel) (es : List BaseEvent)
    (h : (sendEvents m es).err = none) :
    (sendEvents m es).success = es.length := by
  induction es with
  | nil => simp [sendEvents]
  | cons be rest ih =>
    rw [sendEvents] at h ⊢
    by_cases h1 : m.setDataOk be = true
    · rw [if_pos h1] at h ⊢
      by_cases h2 : m.ack be = true
      · rw [if_pos h2] at h ⊢
        simp only at h ⊢
        have := ih (by simpa using h)
        simp [this]
      · rw [if_neg h2] at h; simp at h
    · rw [if_neg h1] at h; simp at h

/-- The trace of sent events is always an initial prefix of the batch, of
length at most one past the success count. -/
theorem sendEvents_sent_take (m : SinkModel) (es : List BaseEvent) :
    ∃ j, j ≤ (sendEvents m es).success + 1 ∧
      (sendEvents m es).sent = es.take j := by
  induction es with
  | nil => exact ⟨0, by simp [sendEvents]⟩
  | cons be rest ih =>
    rw [sendEvents]
    by_cases h1 : m.setDataOk be = true
    · rw [if_pos h1]
      by_cases h2 : m.ack be = true
      · rw [if_pos h2]
        obtain ⟨j, hj, hs⟩ := ih
        exact ⟨j + 1, by simpa using hj, by simp [hs]⟩
      · rw [if_neg h2]; exact ⟨1, by simp⟩
    · rw [if_neg h1]; exact ⟨0, by simp⟩

/-- `sendEvents` on a batch made of a fully delivered prefix followed by a
failing event stops there: the success count is the prefix length and the
error is non-nil. -/
theorem sendEvents_bad (m : SinkModel) (pre post : List BaseEvent)
    (bad : BaseEvent)
    (hpre : ∀ e ∈ pre, m.setDataOk e = true ∧ m.ack e = true)
    (hbad : m.setDataOk bad = false ∨ m.ack bad = false) :
    (sendEvents m (pre ++ bad :: post)).success = pre.length ∧
    ((sendEvents m (pre ++ bad :: post)).err).isSome = true := by
  induction pre with
  | nil =>
    simp only [List.nil_append]
    rw [sendEvents]
    rcases hbad with h | h
    · rw [if_neg (by simp [h])]; simp
    · by_cases h1 : m.setDataOk bad = true
      · rw [if_pos h1, if_neg (by simp [h])]; simp
      · rw [if_neg h1]; simp
  | cons p pre2 ih =>
    have hp := hpre p (by simp)
    simp only [List.cons_append]
    rw [sendEvents, if_pos hp.1, if_pos hp.2]
    have h2 := ih (fun e he => hpre e (by simp [he]))
    simp only
    exact ⟨by simp [h2.1], h2.2⟩

/-! Claims C2 and C10: dispatch semantics. -/

/-- C2: for a batch made of a prefix the sink fully acknowledges followed
by an event that fails conversion or is nacked, `sendEvents` returns the
prefix length as success count with a non-nil error, and the trace of sent
events is an initial prefix of the batch ending no later than the failing
event; independently, a nil error always means the success count is the
whole batch length (the only full-success outcome). -/
theorem dispatch_partial_failure (m : SinkModel) (pre post : List BaseEvent)
    (bad : BaseEvent) (es2 : List BaseEvent)
    (hpre : pre.all (fun e => m.setDataOk e && m.ack e) = true)
    (hbad : m.setDataOk bad = false ∨ m.ack bad = false)
    (hfull : (sendEvents m es2).err = none) :
    (sendEvents m (pre ++ bad :: post)).success = pre.length ∧
    ((sendEvents m (pre ++ bad :: post)).err).isSome = true ∧
    (∃ j, j ≤ pre.length + 1 ∧
      (sendEvents m (pre ++ bad :: post)).sent = (pre ++ bad :: post).take j) ∧
    (sendEvents m es2).success = es2.length := by
  have hpre2 : ∀ e ∈ pre, m.setDataOk e = true ∧ m.ack e = true := by
    intro e he
    have := List.all_eq_true.mp hpre e he
    exact Bool.and_eq_true _ _ |>.mp this
  obtain ⟨hs, he⟩ := sendEvents_bad m pre post bad hpre2 hbad
  refine ⟨hs, he, ?_, sendEvents_err_none m es2 hfull⟩
  obtain ⟨j, hj, htake⟩ := sendEvents_sent_take m (pre ++ bad :: post)
  rw [hs] at hj
  exact ⟨j, hj, htake⟩

/-- Witness for C2: batch `[e1, e2, e3]`, sink nacks `e2` (key 8): success
count 1, non-nil error, only a prefix of the first two events sent. -/
theorem dispatch_partial_failure_witness :
    ([e1].all (fun e => mNack8.setDataOk e && mNack8.ack e) = true) ∧
    (mNack8.setDataOk e2 = false ∨ mNack8.ack e2 = false) ∧
    (sendEvents mNack8 [e1]).err = none ∧
    ((sendEvents mNack8 ([e1] ++ e2 :: [e3])).success = [e1].length ∧
      ((sendEvents mNack8 ([e1] ++ e2 :: [e3])).err).isSome = true ∧
      (∃ j, j ≤ [e1].length + 1 ∧
        (sendEvents mNack8 ([e1] ++ e2 :: [e3])).sent =
          ([e1] ++ e2 :: [e3]).take j) ∧
      (sendEvents mNack8 [e1]).success = [e1].length) :=
  ⟨by decide, by decide, by decide,
    dispatch_partial_failure mNack8 [e1] [e3] e2 [e1]
      (by decide) (by decide) (by decide)⟩

/-- C10: a non-empty batch never yields a zero success count together with
a nil error, so the `panic` branch of the poll loop is unreachable: `step`
never returns a panicked outcome on a successfully polled batch. -/
theorem dispatch_nonempty_progress (m : SinkModel) (es : List BaseEvent)
    (src : String) (s s2 : LoopState) (b : Bool) (hne : es ≠ []) :
    (1 ≤ (sendEvents m es).success ∨ ((sendEvents m es).err).isSome = true) ∧
    step src m s (.poll (some es) b) ≠ .panicked s2 := by
  have hmain : 1 ≤ (sendEvents m es).success ∨
      ((sendEvents m es).err).isSome = true := by
    match es, hne with
    | be :: rest, _ =>
      rw [sendEvents]
      by_cases h1 : m.setDataOk be = true
      · rw [if_pos h1]
        by_cases h2 : m.ack be = true
        · rw [if_pos h2]; left; simp
        · rw [if_neg h2]; right; simp
      · rw [if_neg h1]; right; simp
  have hemp : es.isEmpty = false := by
    cases es with
    | nil => exact absurd rfl hne
    | cons a l => rfl
  refine ⟨hmain, ?_⟩
  by_cases h0 : (sendEvents m es).success = 0
  · have herr : ((sendEvents m es).err).isSome = true := by
      rcases hmain with h | h
      · omega
      · exact h
    simp [step, hemp, h0, herr]
  · obtain ⟨k, hk⟩ : ∃ k, (sendEvents m es).success = k + 1 :=
      ⟨(sendEvents m es).success - 1, by omega⟩
    obtain ⟨e, he, -, -⟩ := sendEvents_last m es k hk
    have hidx : es[(sendEvents m es).success - 1]? = some e := by
      rw [hk]; simpa using he
    cases b <;> simp [step, hemp, h0, hidx]

/-- Witness for C10 on the singleton batch `[e1]` with an all-ACK sink. -/
theorem dispatch_nonempty_progress_witness :
    ([e1] : List BaseEvent) ≠ [] ∧
    ((1 ≤ (sendEvents ackAll [e1]).success ∨
        ((sendEvents ackAll [e1]).err).isSome = true) ∧
      step "vc" ackAll initState (.poll (some [e1]) true) ≠
        .panicked initState) :=
  ⟨by decide, dispatch_nonempty_progress ackAll [e1] "vc" initState
    initState true (by decide)⟩

/-! Claims C3, C4, C9: the checkpoint resolver. -/

/-- C3: exact resume — if the checkpoint's last event timestamp is non-zero
and at least `now - maxReplayAge`, `getBeginFromCheckpoint` returns exactly
that timestamp. -/
theorem getBegin_exact_resume (now maxAge t : Int) (cp : Checkpoint)
    (hcp : cp.lastEventKeyTimestamp = some t) (h : now - maxAge ≤ t) :
    (getBeginFromCheckpoint now cp maxAge).1 = t := by
  rw [getBeginFromCheckpoint, hcp]
  simp only
  rw [if_neg (by omega)]

/-- Witness for C3 at `now = 100`, `maxAge = 60`, checkpoint time 50. -/
theorem getBegin_exact_resume_witness :
    (⟨"vc", 1, "t", some 50, 0⟩ : Checkpoint).lastEventKeyTimestamp = some 50 ∧
    (100 : Int) - 60 ≤ 50 ∧
    (getBeginFromCheckpoint 100 ⟨"vc", 1, "t", some 50, 0⟩ 60).1 = 50 :=
  ⟨rfl, by decide, getBegin_exact_resume 100 60 50 _ rfl (by decide)⟩

/-- C4: replay clamp — if the checkpoint's last event timestamp is non-zero
and older than `now - maxReplayAge`, `getBeginFromCheckpoint` returns that
floor and logs the data-loss warning. -/
theorem getBegin_clamp (now maxAge t : Int) (cp : Checkpoint)
    (hcp : cp.lastEventKeyTimestamp = some t) (h : t < now - maxAge) :
    getBeginFromCheckpoint now cp maxAge = (now - maxAge, true) := by
  rw [getBeginFromCheckpoint, hcp]
  simp only
  rw [if_pos (by omega)]

/-- Witness for C4 at `now = 100`, `maxAge = 60`, checkpoint time 10. -/
theorem getBegin_clamp_witness :
    (⟨"vc", 1, "t", some 10, 0⟩ : Checkpoint).lastEventKeyTimestamp = some 10 ∧
    (10 : Int) < 100 - 60 ∧
    getBeginFromCheckpoint 100 ⟨"vc", 1, "t", some 10, 0⟩ 60 = (40, true) :=
  ⟨rfl, by decide, getBegin_clamp 100 60 10 _ rfl (by decide)⟩

/-- C9 counterexample: with `maxReplayAge = 0` and a checkpoint whose last
event timestamp (5) lies after `now` (0), `getBeginFromCheckpoint` returns
5, not `now`. -/
theorem getBegin_maxAge_zero_counterexample :
    (getBeginFromCheckpoint 0 ⟨"vc", 1, "t", some 5, 0⟩ 0).1 = 5 ∧
    (5 : Int) ≠ 0 :=
  ⟨rfl, by decide⟩

/-- C9 (amended): with `maxReplayAge = 0` the resolved begin time is `now`
for an empty checkpoint and `max now t` for a checkpoint whose non-zero
last event timestamp is `t`; in particular every checkpoint not in the
future resumes from `now`, while a future-dated checkpoint keeps its own
timestamp. -/
theorem getBegin_maxAge_zero (now : Int) (cp : Checkpoint) :
    (getBeginFromCheckpoint now cp 0).1 =
      (match cp.lastEventKeyTimestamp with
       | none => now
       | some t => max now t) := by
  cases hcp : cp.lastEventKeyTimestamp with
  | none => rw [getBeginFromCheckpoint, hcp]
  | some t =>
    rw [getBeginFromCheckpoint, hcp]
    simp only [sub_zero]
    rcases le_or_lt now t with h | h
    · rw [if_neg (by omega)]
      simp [max_eq_right h]
    · rw [if_pos (by omega)]
      simp [max_eq_left h.le]

/-! Claim C1: checkpoint staging. -/

/-- C1: after a polled batch, either the dispatch success count is zero and
the staged checkpoint is unchanged from before the batch, or the success
count is `k + 1` and the newly staged checkpoint records exactly the key,
type and timestamp of the `(k+1)`-th event of the batch — an event whose
conversion succeeded and whose delivery the sink acknowledged. -/
theorem checkpoint_staging (src : String) (m : SinkModel) (s : LoopState)
    (es : List BaseEvent) :
    ((sendEvents m es).success = 0 ∧
      (step src m s (.poll (some es) true)).staged = s.staged) ∨
    (∃ k e s2, (sendEvents m es).success = k + 1 ∧ es[k]? = some e ∧
      step src m s (.poll (some es) true) = .next s2 ∧
      s2.staged =
        some ⟨src, e.key, e.eventType, some e.createdTime, (s.now : Int)⟩ ∧
      m.setDataOk e = true ∧ m.ack e = true) := by
  by_cases h0 : (sendEvents m es).success = 0
  · left
    refine ⟨h0, ?_⟩
    by_cases hemp : es.isEmpty = true
    · simp [step, hemp, StepResult.staged]
    · have hemp2 : es.isEmpty = false := by simpa using hemp
      by_cases herr : ((sendEvents m es).err).isSome = true
      · simp [step, hemp2, h0, herr, StepResult.staged]
      · have herr2 : ((sendEvents m es).err).isSome = false := by
          simpa using herr
        simp [step, hemp2, h0, herr2, StepResult.staged]
  · right
    obtain ⟨k, hk⟩ : ∃ k, (sendEvents m es).success = k + 1 :=
      ⟨(sendEvents m es).success - 1, by omega⟩
    obtain ⟨e, he, hsd, hac⟩ := sendEvents_last m es k hk
    have hemp2 : es.isEmpty = false := by
      cases es with
      | nil => simp [sendEvents] at hk
      | cons a l => rfl
    have hidx : es[(sendEvents m es).success - 1]? = some e := by
      rw [hk]; simpa using he
    refine ⟨k, e,
      { s with lastEvent := some e,
               staged := some ⟨src, e.key, e.eventType, some e.createdTime,
                 (s.now : Int)⟩,
               boff := ⟨0⟩ }, hk, he, ?_, rfl, hsd, hac⟩
    simp [step, hemp2, h0, hidx, Backoff.reset]

/-! Claim C6: backoff policy. -/

/-- C6 counterexample: a non-empty poll whose every event fails to send
does not reset the backoff — after it the attempt counter is still 2, so
the next empty poll waits 4s, not 1s as the claim requires after any
non-empty poll. -/
theorem backoff_reset_counterexample :
    step "vc" nackAll sBoff2 (.poll (some [e1]) true) = .next sBoff2 ∧
    sBoff2.boff.attempt = 2 ∧ backoffForAttempt 2 ≠ 1 :=
  ⟨rfl, rfl, by decide⟩

/-- C6 (amended): the duration of the n-th consecutive empty poll since a
reset is `min 5 (2 ^ n)` seconds — i.e. the sequence `1s, 2s, 4s, 5s, 5s,
...` — and a polled batch with at least one successfully delivered event
(followed by a successful checkpoint `Set`) resets the backoff, so the next
empty poll waits 1s again; a batch whose every delivery fails does not
reset it. -/
theorem backoff_policy (src : String) (m : SinkModel) (s : LoopState)
    (es : List BaseEvent) (n : Nat)
    (h : 1 ≤ (sendEvents m es).success) :
    backoffForAttempt n = min 5 (2 ^ n) ∧
    (backoffForAttempt 0 = 1 ∧ backoffForAttempt 1 = 2 ∧
      backoffForAttempt 2 = 4 ∧ backoffForAttempt 3 = 5 ∧
      backoffForAttempt 4 = 5) ∧
    (∃ s2, step src m s (.poll (some es) true) = .next s2 ∧
      s2.boff.attempt = 0 ∧ backoffForAttempt s2.boff.attempt = 1) := by
  refine ⟨?_, by decide, ?_⟩
  · rw [backoffForAttempt]
    by_cases h5 : 2 ^ n > 5
    · rw [if_pos h5]; omega
    · rw [if_neg h5]; omega
  · obtain ⟨k, hk⟩ : ∃ k, (sendEvents m es).success = k + 1 :=
      ⟨(sendEvents m es).success - 1, by omega⟩
    obtain ⟨e, he, -, -⟩ := sendEvents_last m es k hk
    have hemp2 : es.isEmpty = false := by
      cases es with
      | nil => simp [sendEvents] at hk
      | cons a l => rfl
    have hidx : es[(sendEvents m es).success - 1]? = some e := by
      rw [hk]; simpa using he
    have h0 : ¬ (sendEvents m es).success = 0 := by omega
    refine ⟨{ s with lastEvent := some e,
                     staged := some ⟨src, e.key, e.eventType,
                       some e.createdTime, (s.now : Int)⟩,
                     boff := ⟨0⟩ }, ?_, rfl, rfl⟩
    simp [step, hemp2, h0, hidx, Backoff.reset]

/-- Witness for C6 at `n = 3`, batch `[e1]`, all-ACK sink. -/
theorem backoff_policy_witness :
    1 ≤ (sendEvents ackAll [e1]).success ∧
    (backoffForAttempt 3 = min 5 (2 ^ 3) ∧
      (backoffForAttempt 0 = 1 ∧ backoffForAttempt 1 = 2 ∧
        backoffForAttempt 2 = 4 ∧ backoffForAttempt 3 = 5 ∧
        backoffForAttempt 4 = 5) ∧
      (∃ s2, step "vc" ackAll initState (.poll (some [e1]) true) = .next s2 ∧
        s2.boff.attempt = 0 ∧ backoffForAttempt s2.boff.attempt = 1)) :=
  ⟨by decide, backoff_policy "vc" ackAll initState [e1] 3 (by decide)⟩

/-! Claim C5: flush elision. -/

/-- C5 counterexample: run the loop over one fully delivered batch followed
by three flush-timer firings with no intervening batch. The first firing
flushes; the second and third — a pair of consecutive firings with no
intervening successful batch — perform zero durable writes between them,
so the total stays 1 instead of the 2 the claim's "exactly one write per
such pair" would force. -/
theorem flush_elision_counterexample :
    (loopRun "vc" ackAll none initState
      [.poll (some [e1]) true, .tick true true, .tick true true,
        .tick true true]).flushes = 1 ∧ (1 : Nat) ≠ 2 :=
  ⟨rfl, by decide⟩

/-- C5 (amended): a flush-timer firing performs a durable write iff the
staged position (`lastEvent`) is set and its key differs from the key
recorded at the last durable flush; the firing right after one that wrote
(with no intervening batch) never writes again, so a consecutive pair of
firings with no intervening successful batch performs at most one durable
write — exactly one when the first firing had an advanced staged position,
zero otherwise. -/
theorem flush_elision (src : String) (m : SinkModel) (s : LoopState) :
    ∃ s1 s2, step src m s (.tick true true) = .next s1 ∧
      step src m s1 (.tick true true) = .next s2 ∧
      s1.flushCount = s.flushCount + (if flushPending s then 1 else 0) ∧
      s2.flushCount = s1.flushCount ∧
      (flushPending s = true ↔
        ∃ e, s.lastEvent = some e ∧ s.lastCheckpointEventKey ≠ e.key) := by
  cases hle : s.lastEvent with
  | none =>
    refine ⟨s, s, by simp [step, hle], by simp [step, hle], ?_, rfl, ?_⟩
    · simp [flushPending, hle]
    · simp [flushPending, hle]
  | some e =>
    by_cases hk : s.lastCheckpointEventKey = e.key
    · refine ⟨s, s, by simp [step, hle, hk], by simp [step, hle, hk],
        ?_, rfl, ?_⟩
      · simp [flushPending, hle, hk]
      · simp [flushPending, hle, hk]
    · refine ⟨{ s with flushCount := s.flushCount + 1,
                       lastCheckpointEventKey := e.key },
        { s with flushCount := s.flushCount + 1,
                 lastCheckpointEventKey := e.key },
        by simp [step, hle, hk], by simp [step, hle], ?_, rfl, ?_⟩
      · simp [flushPending, hle, hk]
      · simp [flushPending, hle, hk]

/-! Claim C7: checkpoint-store failures. -/

/-- C7 counterexample: a failing initial checkpoint `Get` does not
terminate `run` with that error — startup proceeds with the zero-value
checkpoint and resolves the begin time from the current vCenter time. -/
theorem kvstore_initial_get_counterexample :
    runStartup (.error ()) (.ok 100) 60 = .ok (100, false) ∧
    runStartup (.error ()) (.ok 100) 60 ≠ .error () :=
  ⟨rfl, fun h => Except.noConfusion h⟩

/-- C7 (amended): checkpoint-store errors inside the loop are fatal with no
retry — a failing `Get` or `Save` on the flush path and a failing `Set`
after a partially or fully delivered batch each terminate the loop with
that error (and on a failed `Set` nothing new is staged) — but the initial
`Get` at startup only logs a warning and the run continues with the
zero-value checkpoint. -/
theorem kvstore_failures (src : String) (m : SinkModel) (s : LoopState)
    (e : BaseEvent) (es : List BaseEvent) (t maxAge : Int) (b : Bool)
    (hlast : s.lastEvent = some e) (hkey : s.lastCheckpointEventKey ≠ e.key)
    (hsucc : 1 ≤ (sendEvents m es).success) :
    step src m s (.tick false b) = .fail .getCheckpoint s ∧
    step src m s (.tick true false) = .fail .saveCheckpoint s ∧
    (∃ s2, step src m s (.poll (some es) false) = .fail .setCheckpoint s2 ∧
      s2.staged = s.staged) ∧
    runStartup (.error ()) (.ok t) maxAge =
      .ok (getBeginFromCheckpoint t ⟨"", 0, "", none, 0⟩ maxAge) := by
  refine ⟨by simp [step, hlast, hkey], by simp [step, hlast, hkey], ?_, rfl⟩
  obtain ⟨k, hk⟩ : ∃ k, (sendEvents m es).success = k + 1 :=
    ⟨(sendEvents m es).success - 1, by omega⟩
  obtain ⟨le, he, -, -⟩ := sendEvents_last m es k hk
  have hemp2 : es.isEmpty = false := by
    cases es with
    | nil => simp [sendEvents] at hk
    | cons a l => rfl
  have hidx : es[(sendEvents m es).success - 1]? = some le := by
    rw [hk]; simpa using he
  have h0 : ¬ (sendEvents m es).success = 0 := by omega
  refine ⟨{ s with lastEvent := some le }, ?_, rfl⟩
  simp [step, hemp2, h0, hidx]

/-- Witness for C7: a state with a staged event of key 7 not yet flushed,
batch `[e1]`, all-ACK sink, startup at vCenter time 100. -/
theorem kvstore_failures_witness :
    ((⟨some e1, 0, ⟨0⟩, none, 0, 0⟩ : LoopState).lastEvent = some e1 ∧
      (⟨some e1, 0, ⟨0⟩, none, 0, 0⟩ : LoopState).lastCheckpointEventKey ≠
        e1.key ∧
      1 ≤ (sendEvents ackAll [e1]).success) ∧
    (step "vc" ackAll ⟨some e1, 0, ⟨0⟩, none, 0, 0⟩ (.tick false true) =
        .fail .getCheckpoint ⟨some e1, 0, ⟨0⟩, none, 0, 0⟩ ∧
      step "vc" ackAll ⟨some e1, 0, ⟨0⟩, none, 0, 0⟩ (.tick true false) =
        .fail .saveCheckpoint ⟨some e1, 0, ⟨0⟩, none, 0, 0⟩ ∧
      (∃ s2, step "vc" ackAll ⟨some e1, 0, ⟨0⟩, none, 0, 0⟩
          (.poll (some [e1]) false) = .fail .setCheckpoint s2 ∧
        s2.staged = (⟨some e1, 0, ⟨0⟩, none, 0, 0⟩ : LoopState).staged) ∧
      runStartup (.error ()) (.ok 100) 60 =
        .ok (getBeginFromCheckpoint 100 ⟨"", 0, "", none, 0⟩ 60)) :=
  ⟨⟨rfl, by decide, by decide⟩,
    kvstore_failures "vc" ackAll ⟨some e1, 0, ⟨0⟩, none, 0, 0⟩ e1 [e1]
      100 60 true rfl (by decide) (by decide)⟩

/-! Claim C8: cancellation and the backoff wait. -/

/-- C8 counterexample: cancellation is raised at model time 1 while the
loop enters an empty-poll backoff wait of 4s at time 0; the wait runs to
completion (the clock reaches 4) and cancellation is reported only at the
next iteration boundary, after the full sleep, not inside the wait. -/
theorem cancellation_counterexample :
    loopRun "vc" ackAll (some 1) sBoff2
        [.poll (some []) true, .poll (some []) true] =
      .returned .ctxCanceled ⟨none, 0, ⟨3⟩, none, 0, 4⟩ ∧ (1 : Nat) < 4 :=
  ⟨rfl, by decide⟩

/-- C8 (amended): cancellation is observed at iteration boundaries — once
the cancellation time has been reached, the next iteration returns the
context error immediately without running its branch — but the empty-poll
backoff wait itself is an uninterruptible sleep: the step advances the
clock by the full backoff duration regardless of any pending
cancellation. -/
theorem cancellation_at_boundary (src : String) (m : SinkModel)
    (s : LoopState) (t : Nat) (i : BranchInput) (rest : List BranchInput)
    (b : Bool) (h : t ≤ s.now) :
    loopRun src m (some t) s (i :: rest) = .returned .ctxCanceled s ∧
    step src m s (.poll (some []) b) =
      .next { s with boff := ⟨s.boff.attempt + 1⟩,
                     now := s.now + backoffForAttempt s.boff.attempt } := by
  constructor
  · rw [loopRun, if_pos (by simp [ctxDone, h])]
  · simp [step, Backoff.duration]

/-- Witness for C8: cancellation at time 0 from the initial state. -/
theorem cancellation_at_boundary_witness :
    (0 : Nat) ≤ initState.now ∧
    (loopRun "vc" ackAll (some 0) initState [.poll (some []) true] =
        .returned .ctxCanceled initState ∧
      step "vc" ackAll initState (.poll (some []) true) =
        .next { initState with
                  boff := ⟨initState.boff.attempt + 1⟩,
                  now := initState.now +
                    backoffForAttempt initState.boff.attempt }) :=
  ⟨by decide, cancellation_at_boundary "vc" ackAll initState 0
    (.poll (some []) true) [] true (by decide)⟩

end VSphereAdapter
